import Mathlib

/-!
Verification of `ott`: the Sinkhorn-divergence composition layer
(`ott/core/sinkhorn_divergence.py`) and the plotting helpers
(`ott/tools/plot.py`), shallowly embedded in Lean 4.

The Sinkhorn fixed-point solver (`ott.core.sinkhorn`) and the geometry
classes live outside the files at hand, so the embedding is parametric in
a solver function `solver : K → G → V → V → SinkhornOutput V E`, where
`K` models the keyword-argument configuration passed unchanged to each
sub-solve, `G` the geometry objects, `V` the weight/potential vectors and
`E` the error traces.  Scalar costs are modelled as rationals.
-/

namespace Ott

/-- The `sinkhorn.SinkhornOutput` named tuple, as used by
`sinkhorn_divergence.py` (fields accessed there: `f`, `g`, `reg_ot_cost`,
`errors`; the null placeholder is built as
`SinkhornOutput(None, None, 0, None)`).  Potentials and error traces are
optional so that the null placeholder is representable. -/
structure SinkhornOutput (V E : Type) where
  f : Option V
  g : Option V
  reg_ot_cost : ℚ
  errors : Option E
  deriving DecidableEq, Repr

/-- The `SinkhornDivergence` named tuple of `sinkhorn_divergence.py`:
`collections.namedtuple('SinkhornDivergence', ['divergence', 'potentials',
'geoms', 'errors'])`.  The three tuples built by the code are modelled as
lists, so that their lengths are facts to prove rather than facts imposed
by the type. -/
structure SinkhornDivergence (V E G : Type) where
  divergence : ℚ
  potentials : List (Option V × Option V)
  geoms : List (Option G)
  errors : List (Option E)
  deriving DecidableEq, Repr

/-- The placeholder `sinkhorn.SinkhornOutput(None, None, 0, None)` used in
`sinkhorn_divergence` when a geometry is `None`. -/
def nullOutput (V E : Type) : SinkhornOutput V E :=
  { f := none, g := none, reg_ot_cost := 0, errors := none }

/-- One element of the list comprehension in `sinkhorn_divergence`:
`sinkhorn.SinkhornOutput(None, None, 0, None) if geom is None else
sinkhorn.sinkhorn(geom, marginals[0], marginals[1], **kwargs)`. -/
def solveTerm {V E G K : Type} (solver : K → G → V → V → SinkhornOutput V E)
    (kwargs : K) (geom : Option G) (m0 m1 : V) : SinkhornOutput V E :=
  match geom with
  | none => nullOutput V E
  | some g => solver kwargs g m0 m1

/-- Embedding of `sinkhorn_divergence(geometry_xy, geometry_xx, geometry_yy,
a, b, **kwargs)`:

```
geoms = (geometry_xy, geometry_xx, geometry_yy)
out = [SinkhornOutput(None, None, 0, None) if geom is None
       else sinkhorn.sinkhorn(geom, marginals[0], marginals[1], **kwargs)
       for (geom, marginals) in zip(geoms, [[a, b], [a, a], [b, b]])]
div = out[0].reg_ot_cost - 0.5 * (out[1].reg_ot_cost + out[2].reg_ot_cost)
return SinkhornDivergence(div, tuple([s.f, s.g] for s in out),
                          geoms, tuple(s.errors for s in out))
```

All three geometry arguments are optional: the wrapper pads missing ones
with `None`, and the comprehension tests each for `None`. -/
def sinkhorn_divergence {V E G K : Type}
    (solver : K → G → V → V → SinkhornOutput V E)
    (geometry_xy geometry_xx geometry_yy : Option G)
    (a b : V) (kwargs : K) : SinkhornDivergence V E G :=
  let geoms : List (Option G) := [geometry_xy, geometry_xx, geometry_yy]
  let out : List (SinkhornOutput V E) :=
    (geoms.zip [(a, b), (a, a), (b, b)]).map
      (fun p => solveTerm solver kwargs p.1 p.2.1 p.2.2)
  { divergence :=
      (out.getD 0 (nullOutput V E)).reg_ot_cost -
        (1 / 2) * ((out.getD 1 (nullOutput V E)).reg_ot_cost +
          (out.getD 2 (nullOutput V E)).reg_ot_cost)
    potentials := out.map (fun s => (s.f, s.g))
    geoms := geoms
    errors := out.map (fun s => s.errors) }

/-- Embedding of `sinkhorn_divergence_wrapper(geom, a, b, *args,
sinkhorn_kwargs=None, static_b=False, **kwargs)`:

```
geometries = geom.prepare_divergences(*args, static_b=static_b, **kwargs)
geometries = (geometries + (None,) * max(0, 3 - len(geometries)))[:3]
div_kwargs = {} if sinkhorn_kwargs is None else sinkhorn_kwargs
return sinkhorn_divergence(*geometries, a, b, **div_kwargs)
```

`geom.prepare_divergences(...)` is a method of the external geometry
class; its result (a tuple of geometries of arbitrary length) is the
parameter `prepared`.  `empty_kwargs` models the empty keyword dictionary
`{}` substituted when `sinkhorn_kwargs` is `None`.  Natural subtraction
`3 - prepared.length` matches Python's `max(0, 3 - len(geometries))`. -/
def sinkhorn_divergence_wrapper {V E G K : Type}
    (solver : K → G → V → V → SinkhornOutput V E)
    (prepared : List G) (a b : V)
    (sinkhorn_kwargs : Option K) (empty_kwargs : K) : SinkhornDivergence V E G :=
  let geometries : List (Option G) :=
    ((prepared.map some) ++ List.replicate (3 - prepared.length) none).take 3
  let div_kwargs := sinkhorn_kwargs.getD empty_kwargs
  sinkhorn_divergence solver (geometries.getD 0 none) (geometries.getD 1 none)
    (geometries.getD 2 none) a b div_kwargs

end Ott

namespace OttPlot

/-- A matrix of rationals, as handed to `ott/tools/plot.py` helpers.
`rows`/`cols` model `x.shape[0]`/`x.shape[1]`; `entries` the data. -/
structure Mat where
  rows : ℕ
  cols : ℕ
  entries : List (List ℚ)
  deriving DecidableEq, Repr

/-- `jnp.concatenate([x, y], axis=0)` on the row-major model. -/
def vconcat (x y : Mat) : Mat :=
  { rows := x.rows + y.rows, cols := x.cols, entries := x.entries ++ y.entries }

/-- `proj[:k]` for a row-major matrix. -/
def takeRows (m : Mat) (k : ℕ) : Mat :=
  { rows := min k m.rows, cols := m.cols, entries := m.entries.take k }

/-- `proj[k:]` for a row-major matrix. -/
def dropRows (m : Mat) (k : ℕ) : Mat :=
  { rows := m.rows - k, cols := m.cols, entries := m.entries.drop k }

/-- Embedding of `bidimensional(x, y)` from `ott/tools/plot.py`:

```
if x.shape[1] < 3:
  return x, y
u, s, _ = scipy.sparse.linalg.svds(jnp.concatenate([x, y], axis=0), k=2)
proj = u * s
k = x.shape[0]
return proj[:k], proj[k:]
```

The truncated SVD projection `u * s` comes from the external library
`scipy`; the parameter `pca2` stands for the map
`M ↦ u * s where u, s, _ = scipy.sparse.linalg.svds(M, k=2)`. -/
def bidimensional (pca2 : Mat → Mat) (x y : Mat) : Mat × Mat :=
  if x.cols < 3 then (x, y)
  else
    let proj := pca2 (vconcat x y)
    let k := x.rows
    (takeRows proj k, dropRows proj k)

/-- Observable side effects of `animate` in `ott/tools/plot.py`: a
`warnings.warn` call, an `Image.open` call, or the final
`images[0].save(...)` call with its keyword arguments. -/
inductive PlotEffect where
  | warn (category message : String)
  | openImage (image_fn : String)
  | saveGif (gif_fn : String) (first : String) (append_images : List String)
      (save_all : Bool) (duration : ℤ) (loop : ℤ)
  deriving DecidableEq, Repr

/-- Embedding of `animate(image_fns, gif_fn, duration=250, loop=0)`:

```
if not PIL_is_importable:
  warnings.warn('Pillow was not imported successfully. Doing nothing instead.',
                RuntimeWarning)
  return
images = [Image.open(image_fn) for image_fn in image_fns]
images[0].save(gif_fn, save_all=True, append_images=images[1:],
               duration=duration, loop=0)
```

The result pairs the trace of side effects with the outcome: `Except.ok
none` models the Python `return None`, `Except.error` the `IndexError`
raised by `images[0]` on an empty list.  `pil_importable` models the
module-level flag `PIL_is_importable`; opened images are identified by
their filenames. -/
def animate (pil_importable : Bool) (image_fns : List String) (gif_fn : String)
    (duration : ℤ) (loop : ℤ) : List PlotEffect × Except String (Option Unit) :=
  if pil_importable = false then
    ([PlotEffect.warn "RuntimeWarning"
        "Pillow was not imported successfully. Doing nothing instead."],
      Except.ok none)
  else
    let opens := image_fns.map PlotEffect.openImage
    match image_fns with
    | [] => (opens, Except.error "IndexError")
    | first :: rest =>
      (opens ++ [PlotEffect.saveGif gif_fn first rest true duration 0],
        Except.ok none)

end OttPlot

namespace OttSinkhorn

/-- Modelled from the spec: the Sinkhorn solver (`ott.core.sinkhorn`) is not
among the files at hand.  This is the objective whose optimum the solver
approaches, per the spec of the solver output: "regularized OT cost =
⟨P, C⟩ + ε·KL(P ‖ a⊗b)", with the Kullback-Leibler divergence written out
as `∑ P i j * log (P i j / (a i * b j))`. -/
noncomputable def entropicObjective {n m : ℕ} (epsilon : ℝ)
    (a : Fin n → ℝ) (b : Fin m → ℝ) (C P : Matrix (Fin n) (Fin m) ℝ) : ℝ :=
  (∑ i, ∑ j, P i j * C i j) +
    epsilon * ∑ i, ∑ j, P i j * Real.log (P i j / (a i * b j))

/-- Modelled from the spec: the feasible couplings of the balanced problem,
per the spec of the solver: "the induced coupling P ... has row sums ≈ a and
column sums ≈ b", taken exactly at the fixed point. -/
def isCoupling {n m : ℕ} (a : Fin n → ℝ) (b : Fin m → ℝ)
    (P : Matrix (Fin n) (Fin m) ℝ) : Prop :=
  (∀ i j, 0 ≤ P i j) ∧ (∀ i, ∑ j, P i j = a i) ∧ (∀ j, ∑ i, P i j = b j)

/-- Modelled from the spec: the regularized OT cost `OT_ε(a; b)` for a cost
matrix `C`, as the optimal value of the entropic objective over feasible
couplings (the value the converged Sinkhorn solver reports). -/
noncomputable def regOTCost {n m : ℕ} (epsilon : ℝ)
    (a : Fin n → ℝ) (b : Fin m → ℝ) (C : Matrix (Fin n) (Fin m) ℝ) : ℝ :=
  sInf (Set.image (entropicObjective epsilon a b C) {P | isCoupling a b P})

/-- Modelled from the spec: `OT_ε(a,x; b,y)` for weighted point clouds
`(a, x)` and `(b, y)` under a ground cost function `c`, the cost matrix
being `C i j = c (x i) (y j)`. -/
noncomputable def regOTCostPoints {n m : ℕ} {α : Type} (epsilon : ℝ)
    (a : Fin n → ℝ) (x : Fin n → α) (b : Fin m → ℝ) (y : Fin m → α)
    (c : α → α → ℝ) : ℝ :=
  regOTCost epsilon a b (Matrix.of fun i j => c (x i) (y j))

/-- A concrete solver instance (over `V = E = G = K = ℚ`), used to evaluate
the parametric embedding on concrete inputs. -/
def demoSolver : ℚ → ℚ → ℚ → ℚ → Ott.SinkhornOutput ℚ ℚ :=
  fun kwargs geom m0 m1 =>
    { f := some (geom + m0), g := some (kwargs + m1),
      reg_ot_cost := geom * m0 + m1, errors := some (m0 - m1) }

end OttSinkhorn

/-- C1: for every three geometries and weight vectors `a`, `b`,
`sinkhorn_divergence` returns a divergence equal to the regularized OT cost
of the XY solve minus one half of the sum of the regularized OT costs of
the XX and YY solves. -/
theorem Ott.sinkhorn_divergence_formula {V E G K : Type}
    (solver : K → G → V → V → Ott.SinkhornOutput V E)
    (gxy gxx gyy : G) (a b : V) (kwargs : K) :
    (Ott.sinkhorn_divergence solver (some gxy) (some gxx) (some gyy)
        a b kwargs).divergence =
      (solver kwargs gxy a b).reg_ot_cost -
        (1 / 2) * ((solver kwargs gxx a a).reg_ot_cost +
          (solver kwargs gyy b b).reg_ot_cost) := rfl

/-- C4: the three Sinkhorn sub-solves are run with marginal pairs `(a, b)`
on the XY geometry, `(a, a)` on the XX geometry and `(b, b)` on the YY
geometry, all three with the identical keyword-argument configuration
`kwargs`. -/
theorem Ott.sinkhorn_divergence_marginals_and_config {V E G K : Type}
    (solver : K → G → V → V → Ott.SinkhornOutput V E)
    (gxy gxx gyy : G) (a b : V) (kwargs : K) :
    (Ott.sinkhorn_divergence solver (some gxy) (some gxx) (some gyy)
        a b kwargs).potentials =
      [((solver kwargs gxy a b).f, (solver kwargs gxy a b).g),
        ((solver kwargs gxx a a).f, (solver kwargs gxx a a).g),
        ((solver kwargs gyy b b).f, (solver kwargs gyy b b).g)] ∧
    (Ott.sinkhorn_divergence solver (some gxy) (some gxx) (some gyy)
        a b kwargs).errors =
      [(solver kwargs gxy a b).errors, (solver kwargs gxx a a).errors,
        (solver kwargs gyy b b).errors] := ⟨rfl, rfl⟩

/-- C5: when the three geometries coincide (the two point sets are equal)
and the two weight vectors are equal, the divergence returned by
`sinkhorn_divergence` is exactly `0`. -/
theorem Ott.sinkhorn_divergence_self_eq_zero {V E G K : Type}
    (solver : K → G → V → V → Ott.SinkhornOutput V E)
    (g : G) (a : V) (kwargs : K) :
    (Ott.sinkhorn_divergence solver (some g) (some g) (some g)
        a a kwargs).divergence = 0 := by
  show (solver kwargs g a a).reg_ot_cost -
      (1 / 2) * ((solver kwargs g a a).reg_ot_cost +
        (solver kwargs g a a).reg_ot_cost) = 0
  ring

/-- C6: the three sub-solves are independent.  The XY slot of the result
(potential pair and error trace) depends only on `geometry_xy`, `a`, `b`;
the XX slot only on `geometry_xx` and `a`; the YY slot only on
`geometry_yy` and `b`. -/
theorem Ott.sinkhorn_divergence_subsolves_independent {V E G K : Type}
    (solver : K → G → V → V → Ott.SinkhornOutput V E) (kwargs : K)
    (gxy gxx gyy gxy' gxx' gyy' : Option G) (a b a' b' : V) :
    ((Ott.sinkhorn_divergence solver gxy gxx gyy a b kwargs).potentials.get? 0 =
        (Ott.sinkhorn_divergence solver gxy gxx' gyy' a b kwargs).potentials.get? 0 ∧
      (Ott.sinkhorn_divergence solver gxy gxx gyy a b kwargs).errors.get? 0 =
        (Ott.sinkhorn_divergence solver gxy gxx' gyy' a b kwargs).errors.get? 0) ∧
    ((Ott.sinkhorn_divergence solver gxy gxx gyy a b kwargs).potentials.get? 1 =
        (Ott.sinkhorn_divergence solver gxy' gxx gyy' a b' kwargs).potentials.get? 1 ∧
      (Ott.sinkhorn_divergence solver gxy gxx gyy a b kwargs).errors.get? 1 =
        (Ott.sinkhorn_divergence solver gxy' gxx gyy' a b' kwargs).errors.get? 1) ∧
    ((Ott.sinkhorn_divergence solver gxy gxx gyy a b kwargs).potentials.get? 2 =
        (Ott.sinkhorn_divergence solver gxy' gxx' gyy a' b kwargs).potentials.get? 2 ∧
      (Ott.sinkhorn_divergence solver gxy gxx gyy a b kwargs).errors.get? 2 =
        (Ott.sinkhorn_divergence solver gxy' gxx' gyy a' b kwargs).errors.get? 2) :=
  ⟨⟨rfl, rfl⟩, ⟨rfl, rfl⟩, rfl, rfl⟩

/-- A matrix is a coupling of `(b, a)` exactly when its transpose is a
coupling of `(a, b)`. -/
theorem OttSinkhorn.isCoupling_transpose {n m : ℕ} (a : Fin n → ℝ)
    (b : Fin m → ℝ) (P : Matrix (Fin m) (Fin n) ℝ) :
    OttSinkhorn.isCoupling b a P ↔ OttSinkhorn.isCoupling a b P.transpose := by
  constructor
  · rintro ⟨h1, h2, h3⟩
    exact ⟨fun i j => h1 j i, h3, h2⟩
  · rintro ⟨h1, h2, h3⟩
    exact ⟨fun j i => h1 i j, h3, h2⟩

/-- The entropic objective for the swapped marginals and transposed cost,
evaluated at a coupling `P`, equals the original objective at the
transposed coupling. -/
theorem OttSinkhorn.entropicObjective_transpose {n m : ℕ} (epsilon : ℝ)
    (a : Fin n → ℝ) (b : Fin m → ℝ) (C : Matrix (Fin n) (Fin m) ℝ)
    (P : Matrix (Fin m) (Fin n) ℝ) :
    OttSinkhorn.entropicObjective epsilon b a C.transpose P =
      OttSinkhorn.entropicObjective epsilon a b C P.transpose := by
  unfold OttSinkhorn.entropicObjective
  congr 1
  · rw [Finset.sum_comm]
    simp only [Matrix.transpose_apply]
  · congr 1
    rw [Finset.sum_comm]
    refine Finset.sum_congr rfl fun i _ => Finset.sum_congr rfl fun j _ => ?_
    rw [Matrix.transpose_apply, mul_comm (b j) (a i)]

/-- Swapping the marginals and transposing the cost matrix leaves the
optimal entropic cost unchanged. -/
theorem OttSinkhorn.regOTCost_swap {n m : ℕ} (epsilon : ℝ)
    (a : Fin n → ℝ) (b : Fin m → ℝ) (C : Matrix (Fin n) (Fin m) ℝ) :
    OttSinkhorn.regOTCost epsilon b a C.transpose =
      OttSinkhorn.regOTCost epsilon a b C := by
  unfold OttSinkhorn.regOTCost
  congr 1
  ext v
  simp only [Set.mem_image, Set.mem_setOf_eq]
  constructor
  · rintro ⟨P, hP, rfl⟩
    exact ⟨P.transpose, (OttSinkhorn.isCoupling_transpose a b P).mp hP,
      (OttSinkhorn.entropicObjective_transpose epsilon a b C P).symm⟩
  · rintro ⟨Q, hQ, rfl⟩
    refine ⟨Q.transpose, ?_, ?_⟩
    · rw [OttSinkhorn.isCoupling_transpose, Matrix.transpose_transpose]
      exact hQ
    · rw [OttSinkhorn.entropicObjective_transpose, Matrix.transpose_transpose]

/-- C7: for every symmetric ground cost function, all weights and all
point sets, the regularized OT cost is symmetric under exchanging the two
weighted point clouds: `OT_ε(a,x; b,y) = OT_ε(b,y; a,x)`. -/
theorem OttSinkhorn.regOTCostPoints_symm {n m : ℕ} {α : Type} (epsilon : ℝ)
    (a : Fin n → ℝ) (x : Fin n → α) (b : Fin m → ℝ) (y : Fin m → α)
    (c : α → α → ℝ) (hc : ∀ u v, c u v = c v u) :
    OttSinkhorn.regOTCostPoints epsilon a x b y c =
      OttSinkhorn.regOTCostPoints epsilon b y a x c := by
  unfold OttSinkhorn.regOTCostPoints
  have hmat : (Matrix.of fun j i => c (y j) (x i)) =
      (Matrix.of fun i j => c (x i) (y j)).transpose := by
    ext j i
    exact hc (y j) (x i)
  rw [hmat, OttSinkhorn.regOTCost_swap]

/-- Witness for C7: symmetry at a concrete one-point problem with the
squared-difference cost. -/
theorem OttSinkhorn.regOTCostPoints_symm_witness :
    OttSinkhorn.regOTCostPoints 1 (fun _ : Fin 1 => (1 : ℝ)) (fun _ => (0 : ℝ))
        (fun _ : Fin 1 => (1 : ℝ)) (fun _ => (1 : ℝ))
        (fun u v => (u - v) ^ 2) =
      OttSinkhorn.regOTCostPoints 1 (fun _ : Fin 1 => (1 : ℝ)) (fun _ => (1 : ℝ))
        (fun _ : Fin 1 => (1 : ℝ)) (fun _ => (0 : ℝ))
        (fun u v => (u - v) ^ 2) :=
  OttSinkhorn.regOTCostPoints_symm 1 _ _ _ _ _ (fun u v => by ring)

/-- C2: whenever a geometry argument is `None`, the corresponding term's
regularized OT cost is `0` and its potential pair and error-trace slot are
null placeholders; the combination formula
`divergence = cross − ½(XX + YY)` is applied unconditionally over all
three terms. -/
theorem Ott.sinkhorn_divergence_null_placeholder {V E G K : Type}
    (solver : K → G → V → V → Ott.SinkhornOutput V E)
    (gxy gxx gyy : Option G) (a b : V) (kwargs : K) :
    (Ott.sinkhorn_divergence solver gxy gxx gyy a b kwargs).divergence =
      (Ott.solveTerm solver kwargs gxy a b).reg_ot_cost -
        (1 / 2) * ((Ott.solveTerm solver kwargs gxx a a).reg_ot_cost +
          (Ott.solveTerm solver kwargs gyy b b).reg_ot_cost) ∧
    (gxy = none →
      (Ott.solveTerm solver kwargs gxy a b).reg_ot_cost = 0 ∧
      (Ott.sinkhorn_divergence solver gxy gxx gyy a b kwargs).potentials.get? 0 =
        some (none, none) ∧
      (Ott.sinkhorn_divergence solver gxy gxx gyy a b kwargs).errors.get? 0 =
        some none) ∧
    (gxx = none →
      (Ott.solveTerm solver kwargs gxx a a).reg_ot_cost = 0 ∧
      (Ott.sinkhorn_divergence solver gxy gxx gyy a b kwargs).potentials.get? 1 =
        some (none, none) ∧
      (Ott.sinkhorn_divergence solver gxy gxx gyy a b kwargs).errors.get? 1 =
        some none) ∧
    (gyy = none →
      (Ott.solveTerm solver kwargs gyy b b).reg_ot_cost = 0 ∧
      (Ott.sinkhorn_divergence solver gxy gxx gyy a b kwargs).potentials.get? 2 =
        some (none, none) ∧
      (Ott.sinkhorn_divergence solver gxy gxx gyy a b kwargs).errors.get? 2 =
        some none) := by
  refine ⟨rfl, ?_, ?_, ?_⟩ <;> rintro rfl <;> exact ⟨rfl, rfl, rfl⟩

/-- Witness for C2: concrete call with the XX and YY geometries missing;
their costs are `0`, their slots null placeholders, and the formula is
still applied. -/
theorem Ott.sinkhorn_divergence_null_placeholder_witness :
    (Ott.sinkhorn_divergence OttSinkhorn.demoSolver (some 2) none none
        (1 : ℚ) 3 0).divergence =
      (Ott.solveTerm OttSinkhorn.demoSolver 0 (some 2) (1 : ℚ) 3).reg_ot_cost -
        (1 / 2) * ((Ott.solveTerm OttSinkhorn.demoSolver 0 none (1 : ℚ) 1).reg_ot_cost +
          (Ott.solveTerm OttSinkhorn.demoSolver 0 none (3 : ℚ) 3).reg_ot_cost) ∧
    ((some (2 : ℚ)) = none →
      (Ott.solveTerm OttSinkhorn.demoSolver 0 (some 2) (1 : ℚ) 3).reg_ot_cost = 0 ∧
      (Ott.sinkhorn_divergence OttSinkhorn.demoSolver (some 2) none none
          (1 : ℚ) 3 0).potentials.get? 0 = some (none, none) ∧
      (Ott.sinkhorn_divergence OttSinkhorn.demoSolver (some 2) none none
          (1 : ℚ) 3 0).errors.get? 0 = some none) ∧
    ((none : Option ℚ) = none →
      (Ott.solveTerm OttSinkhorn.demoSolver 0 none (1 : ℚ) 1).reg_ot_cost = 0 ∧
      (Ott.sinkhorn_divergence OttSinkhorn.demoSolver (some 2) none none
          (1 : ℚ) 3 0).potentials.get? 1 = some (none, none) ∧
      (Ott.sinkhorn_divergence OttSinkhorn.demoSolver (some 2) none none
          (1 : ℚ) 3 0).errors.get? 1 = some none) ∧
    ((none : Option ℚ) = none →
      (Ott.solveTerm OttSinkhorn.demoSolver 0 none (3 : ℚ) 3).reg_ot_cost = 0 ∧
      (Ott.sinkhorn_divergence OttSinkhorn.demoSolver (some 2) none none
          (1 : ℚ) 3 0).potentials.get? 2 = some (none, none) ∧
      (Ott.sinkhorn_divergence OttSinkhorn.demoSolver (some 2) none none
          (1 : ℚ) 3 0).errors.get? 2 = some none) :=
  Ott.sinkhorn_divergence_null_placeholder OttSinkhorn.demoSolver
    (some 2) none none 1 3 0

/-- C3: whatever number of geometries `prepare_divergences` returns, the
wrapper's result contains exactly three potential-pair slots, exactly
three geometry slots and exactly three error-trace slots, the slots beyond
the prepared geometries being null placeholders. -/
theorem Ott.sinkhorn_divergence_wrapper_three_slots {V E G K : Type}
    (solver : K → G → V → V → Ott.SinkhornOutput V E)
    (prepared : List G) (a b : V) (sinkhorn_kwargs : Option K) (empty_kwargs : K) :
    (Ott.sinkhorn_divergence_wrapper solver prepared a b sinkhorn_kwargs
        empty_kwargs).potentials.length = 3 ∧
    (Ott.sinkhorn_divergence_wrapper solver prepared a b sinkhorn_kwargs
        empty_kwargs).geoms.length = 3 ∧
    (Ott.sinkhorn_divergence_wrapper solver prepared a b sinkhorn_kwargs
        empty_kwargs).errors.length = 3 ∧
    (∀ i : ℕ, prepared.length ≤ i → i < 3 →
      (Ott.sinkhorn_divergence_wrapper solver prepared a b sinkhorn_kwargs
          empty_kwargs).geoms.get? i = some none ∧
      (Ott.sinkhorn_divergence_wrapper solver prepared a b sinkhorn_kwargs
          empty_kwargs).potentials.get? i = some (none, none) ∧
      (Ott.sinkhorn_divergence_wrapper solver prepared a b sinkhorn_kwargs
          empty_kwargs).errors.get? i = some none) := by
  match prepared with
  | [] =>
    refine ⟨rfl, rfl, rfl, fun i h1 h2 => ?_⟩
    interval_cases i <;> exact ⟨rfl, rfl, rfl⟩
  | [g1] =>
    refine ⟨rfl, rfl, rfl, fun i h1 h2 => ?_⟩
    simp only [List.length_cons, List.length_nil] at h1
    interval_cases i <;> exact ⟨rfl, rfl, rfl⟩
  | [g1, g2] =>
    refine ⟨rfl, rfl, rfl, fun i h1 h2 => ?_⟩
    simp only [List.length_cons, List.length_nil] at h1
    interval_cases i <;> exact ⟨rfl, rfl, rfl⟩
  | g1 :: g2 :: g3 :: rest =>
    refine ⟨rfl, rfl, rfl, fun i h1 h2 => ?_⟩
    simp only [List.length_cons] at h1
    omega

/-- Witness for C3: a single prepared geometry still yields three slots,
the second and third being null placeholders. -/
theorem Ott.sinkhorn_divergence_wrapper_three_slots_witness :
    (Ott.sinkhorn_divergence_wrapper OttSinkhorn.demoSolver [(5 : ℚ)]
        (1 : ℚ) 3 none 0).potentials.length = 3 ∧
    (Ott.sinkhorn_divergence_wrapper OttSinkhorn.demoSolver [(5 : ℚ)]
        (1 : ℚ) 3 none 0).geoms.length = 3 ∧
    (Ott.sinkhorn_divergence_wrapper OttSinkhorn.demoSolver [(5 : ℚ)]
        (1 : ℚ) 3 none 0).errors.length = 3 ∧
    (Ott.sinkhorn_divergence_wrapper OttSinkhorn.demoSolver [(5 : ℚ)]
        (1 : ℚ) 3 none 0).geoms.get? 1 = some none ∧
    (Ott.sinkhorn_divergence_wrapper OttSinkhorn.demoSolver [(5 : ℚ)]
        (1 : ℚ) 3 none 0).potentials.get? 2 = some (none, none) ∧
    (Ott.sinkhorn_divergence_wrapper OttSinkhorn.demoSolver [(5 : ℚ)]
        (1 : ℚ) 3 none 0).errors.get? 1 = some none :=
  ⟨(Ott.sinkhorn_divergence_wrapper_three_slots OttSinkhorn.demoSolver
      [(5 : ℚ)] 1 3 none 0).1,
    (Ott.sinkhorn_divergence_wrapper_three_slots OttSinkhorn.demoSolver
      [(5 : ℚ)] 1 3 none 0).2.1,
    (Ott.sinkhorn_divergence_wrapper_three_slots OttSinkhorn.demoSolver
      [(5 : ℚ)] 1 3 none 0).2.2.1,
    ((Ott.sinkhorn_divergence_wrapper_three_slots OttSinkhorn.demoSolver
      [(5 : ℚ)] 1 3 none 0).2.2.2 1 (by decide) (by decide)).1,
    ((Ott.sinkhorn_divergence_wrapper_three_slots OttSinkhorn.demoSolver
      [(5 : ℚ)] 1 3 none 0).2.2.2 2 (by decide) (by decide)).2.1,
    ((Ott.sinkhorn_divergence_wrapper_three_slots OttSinkhorn.demoSolver
      [(5 : ℚ)] 1 3 none 0).2.2.2 1 (by decide) (by decide)).2.2⟩

/-- C8: the output of `animate` does not depend on its `loop` argument:
two calls differing only in `loop` produce the same effects (in particular
the GIF is saved with `loop=0`) and the same return value. -/
theorem OttPlot.animate_ignores_loop (pil : Bool) (image_fns : List String)
    (gif_fn : String) (duration l1 l2 : ℤ) :
    OttPlot.animate pil image_fns gif_fn duration l1 =
      OttPlot.animate pil image_fns gif_fn duration l2 := rfl

/-- C9: when `x` has fewer than 3 columns, `bidimensional` returns
`(x, y)` unchanged, applying no PCA projection. -/
theorem OttPlot.bidimensional_low_dim_identity (pca2 : OttPlot.Mat → OttPlot.Mat)
    (x y : OttPlot.Mat) (h : x.cols < 3) :
    OttPlot.bidimensional pca2 x y = (x, y) := by
  simp [OttPlot.bidimensional, h]

/-- Witness for C9: a concrete 2-column matrix is returned unchanged. -/
theorem OttPlot.bidimensional_low_dim_identity_witness :
    (⟨2, 2, [[1, 0], [0, 1]]⟩ : OttPlot.Mat).cols < 3 ∧
      OttPlot.bidimensional id (⟨2, 2, [[1, 0], [0, 1]]⟩ : OttPlot.Mat)
          (⟨1, 2, [[3, 4]]⟩ : OttPlot.Mat) =
        ((⟨2, 2, [[1, 0], [0, 1]]⟩ : OttPlot.Mat),
          (⟨1, 2, [[3, 4]]⟩ : OttPlot.Mat)) :=
  ⟨by decide, OttPlot.bidimensional_low_dim_identity id _ _ (by decide)⟩

/-- C10: when PIL is not importable, `animate` issues exactly one
RuntimeWarning and returns `None`, with no image opened and no file
written. -/
theorem OttPlot.animate_no_pil (image_fns : List String) (gif_fn : String)
    (duration l : ℤ) :
    OttPlot.animate false image_fns gif_fn duration l =
      ([OttPlot.PlotEffect.warn "RuntimeWarning"
          "Pillow was not imported successfully. Doing nothing instead."],
        Except.ok none) := rfl
